import Mathlib

/-!
Verification development for the "Anthropology" performance player.

The repository holds several snapshots (lineages) of the same application.
Each definition below is a shallow embedding of one concrete source
function, identified by file and line range in its doc comment.
JavaScript strings are modelled as Lean `String`s; the JS string methods
used by the code (`trim`, `startsWith`, `endsWith`, `toLowerCase`,
`toUpperCase`, `length`, `includes`) are modelled by the kernel-computable
character-list functions `jsTrim`, `jsStartsWith`, ... below, with JS
whitespace modelled by Lean's `Char.isWhitespace` set.
JS array indexing `a[i]` (which yields `undefined` out of range or for a
negative index) is modelled with `Option`.
-/

/-- JS `String.prototype.trim`, modelled on the character list. -/
def jsTrim (s : String) : String :=
  ⟨((s.data.dropWhile Char.isWhitespace).reverse.dropWhile
      Char.isWhitespace).reverse⟩

/-- JS `String.prototype.startsWith`. -/
def jsStartsWith (s pre : String) : Bool :=
  pre.data.isPrefixOf s.data

/-- JS `String.prototype.endsWith`. -/
def jsEndsWith (s suf : String) : Bool :=
  suf.data.reverse.isPrefixOf s.data.reverse

/-- JS `String.prototype.length` (code points; the scripts are ASCII). -/
def jsLength (s : String) : Nat :=
  s.data.length

/-- JS `String.prototype.toLowerCase` (ASCII case mapping). -/
def jsToLower (s : String) : String :=
  ⟨s.data.map Char.toLower⟩

/-- JS `String.prototype.toUpperCase` (ASCII case mapping). -/
def jsToUpper (s : String) : String :=
  ⟨s.data.map Char.toUpper⟩

/-- Helper for `jsIncludes`: does `needle` occur in the character list? -/
def containsSubAux (needle : List Char) : List Char → Bool
  | [] => needle.isPrefixOf ([] : List Char)
  | c :: cs => needle.isPrefixOf (c :: cs) || containsSubAux needle cs

/-- JS `String.prototype.includes`: substring containment. -/
def jsIncludes (s needle : String) : Bool :=
  containsSubAux needle.data s.data

/-- `src/types.ts` `CueType` (fullest snapshot, lines 78-94). -/
inductive CueType where
  | CUT_TO_LIVE_CAMERA
  | END_LIVE_FEED
  | CUT_TO_TEXT
  | CUT_TO_PRERECORDED
  | PLAY_SPECIFIC_VIDEO
  | SHOW_AI_CODE
  | HIDE_AI_CODE
  | TRIGGER_ERROR
  | NO_ERROR
  | PLAY_VOICEMAIL
  | RED_SCREEN
  | FLASHING_SCREEN
  | NORMAL_SCREEN
  | BLACKOUT
  | UNKNOWN
  deriving DecidableEq, Repr

/-- `src/types.ts` `ScriptLine = DialogueLine | CueLine | SceneMarkerLine`.
`dialogue` carries `character` and `text`; `cue` carries the cue kind, the
original text and the optional `audioIndex`/`videoFilename` payloads;
`sceneMarker` carries the scene name. -/
inductive ScriptLine where
  | dialogue (character : String) (text : String)
  | cue (c : CueType) (originalText : String)
      (audioIndex : Option Nat) (videoFilename : Option String)
  | sceneMarker (sceneName : String)
  deriving DecidableEq, Repr

/-- `src/types.ts` `ViewMode`. -/
inductive ViewMode where
  | TEXT
  | LIVE_VIDEO
  | PRERECORDED
  deriving DecidableEq, Repr

/-- Modelled from the spec: the `MISSING` member of
`PrerecordedVideoState` (`src/types.ts`).  The snapshots of `types.ts`
present in the repository stop at `IDLE, DIALOGUE` resp.
`IDLE, DIALOGUE, SPECIFIC`; the `MISSING` member is referenced by the
newest state machine (`src/unnamed/part_009`) and view
(`src/unnamed/part_002`), whose matching `types.ts` snapshot is absent
from the repository, so it is taken from the spec's §3 render state:
the distinct, user-visible "asset missing" sub-state. -/
inductive PrerecordedVideoState where
  | IDLE
  | DIALOGUE
  | SPECIFIC
  | MISSING
  deriving DecidableEq, Repr

/-- `src/types.ts` `Scene { name, index }`. -/
structure Scene where
  name : String
  index : Nat
  deriving DecidableEq, Repr

/-- `src/types.ts` `VideoFile { file, url }`; only `file.name` and `url`
are consumed by the core, so the embedding keeps just those. -/
structure VideoFile where
  name : String
  url : String
  deriving DecidableEq, Repr

/-- `src/types.ts` `AudioFile { file, url }`, as for `VideoFile`. -/
structure AudioFile where
  name : String
  url : String
  deriving DecidableEq, Repr

/-- `src/services/scriptParser.ts` `COMPUTER_CHARACTER = 'ANGIE'`. -/
def COMPUTER_CHARACTER : String := "ANGIE"

/-- JS array read `a[i]` for a signed index: negative or out-of-range
indices yield `undefined`. -/
def jsIndex {α : Type} (l : List α) (i : Int) : Option α :=
  if 0 ≤ i then l.get? i.toNat else none

/-- The short-parenthetical test used verbatim across the code base:
`trimmedText.startsWith('(') && trimmedText.endsWith(')') &&
trimmedText.length < 25` (applied to already-trimmed text). -/
def isShortParenthetical (trimmedText : String) : Bool :=
  jsStartsWith trimmedText "(" && jsEndsWith trimmedText ")" &&
    jsLength trimmedText < 25

/-- A line is a countable computer (ANGIE) dialogue line: dialogue,
character equals `COMPUTER_CHARACTER`, and the trimmed text is non-empty
and not a short parenthetical (`src/unnamed/part_009` lines 76-81). -/
def isCountableAngieLine : ScriptLine → Bool
  | .dialogue c t =>
      c == COMPUTER_CHARACTER &&
        (let trimmed := jsTrim t
         trimmed != "" && !(isShortParenthetical trimmed))
  | _ => false

/-- Whether the script position `j` holds a scene marker. -/
def markerAt (script : List ScriptLine) (j : Nat) : Bool :=
  match script.get? j with
  | some (.sceneMarker _) => true
  | _ => false

/-- Whether the script position `j` holds a countable computer line. -/
def countableAt (script : List ScriptLine) (j : Nat) : Bool :=
  match script.get? j with
  | some l => isCountableAngieLine l
  | none => false

/-! ## C1 — scene-relative computer-line ordinal -/

/-- `src/App.tsx` (second snapshot, lines 343-347): the scene list derived
from the parsed script — every `SCENE_MARKER` line paired with its
position. -/
def scenesOf (script : List ScriptLine) : List Scene :=
  script.enum.filterMap fun p =>
    match p.2 with
    | .sceneMarker n => some ⟨n, p.1⟩
    | _ => none

/-- `src/unnamed/part_009` lines 67-85, `angieDialogueIndex`: find the
last scene whose marker position is at or before the cursor
(`scenes.slice().reverse().find(s => s.index <= currentLineIndex)`,
defaulting to position 0), then count countable computer dialogue lines
from that position through the cursor, starting the counter at `-1`. -/
def angieDialogueIndex (script : List ScriptLine) (scenes : List Scene)
    (currentLineIndex : Nat) : Int :=
  let currentScene := scenes.reverse.find? fun s =>
    decide (s.index ≤ currentLineIndex)
  let sceneStartIndex : Nat := match currentScene with
    | some s => s.index
    | none => 0
  (List.range' sceneStartIndex (currentLineIndex + 1 - sceneStartIndex)).foldl
    (fun count i => if countableAt script i then count + 1 else count)
    (-1 : Int)

/-- Spec §3/§4.1: the start of the scene containing the cursor — the
nearest scene-marker position at or before the cursor, found by scanning
downward; `none` when no marker precedes the cursor. -/
def specLastMarker (script : List ScriptLine) : Nat → Option Nat
  | 0 => if markerAt script 0 then some 0 else none
  | n + 1 =>
      if markerAt script (n + 1) then some (n + 1)
      else specLastMarker script n

/-- Spec §3/§4.1: counting starts at the containing scene's marker, or at
position 0 when no scene marker precedes the cursor. -/
def specSceneStart (script : List ScriptLine) (cur : Nat) : Nat :=
  (specLastMarker script cur).getD 0

/-- Spec-side computer-line ordinal, transcribed from the claim: the
zero-based ordinal of a countable cursor line among the countable
computer dialogue lines of its scene, i.e. the number of countable
computer dialogue lines strictly before the cursor and at or after the
start of the containing scene. -/
def specComputerLineOrdinal (script : List ScriptLine) (cur : Nat) : Nat :=
  (List.range' (specSceneStart script cur)
      (cur - specSceneStart script cur)).countP
    fun i => countableAt script i

/-- What it means for `r` to point at the last scene marker at or before
`cur` (or for no such marker to exist). -/
def IsLastMarker (script : List ScriptLine) (cur : Nat) : Option Nat → Prop
  | some j => markerAt script j = true ∧ j ≤ cur ∧
      ∀ k, markerAt script k = true → k ≤ cur → k ≤ j
  | none => ∀ k, markerAt script k = true → ¬ k ≤ cur

/-- Recursive presentation of `scenesOf`, used in proofs. -/
def scenesAux : Nat → List ScriptLine → List Scene
  | _, [] => []
  | off, l :: ls =>
      (match l with
       | .sceneMarker n => [⟨n, off⟩]
       | _ => ([] : List Scene)) ++ scenesAux (off + 1) ls

/-- The result of reverse-finding in the derived scene list, written as a
direct recursion over the script: markers later in the script win. -/
def lastMarkerIdx : List ScriptLine → Nat → Nat → Option Nat
  | [], _, _ => none
  | l :: ls, off, cur =>
      match lastMarkerIdx ls (off + 1) cur with
      | some j => some j
      | none =>
          match l with
          | .sceneMarker _ => if off ≤ cur then some off else none
          | _ => none

/-! ## The part_009 performance state machine reaction -/

/-- `src/unnamed/part_009` lines 36-40: the prerecorded-video sub-state
record `{ state, dialogueIndex, specificVideoUrl }`. -/
structure VideoState where
  state : PrerecordedVideoState
  dialogueIndex : Int
  specificVideoUrl : Option String
  deriving DecidableEq, Repr

/-- The pieces of `usePerformanceManager` React state
(`src/unnamed/part_009` lines 35-46) that the line-reaction effect reads
and writes. -/
structure PMState where
  viewMode : ViewMode
  videoState : VideoState
  displayedAngieLine : Option ScriptLine
  isTyping : Bool
  isLiveFeedActive : Bool
  isAutoAdvancing : Bool
  deriving DecidableEq, Repr

/-- Result of one run of the line-reaction effect: the new state, the
number of advance requests emitted (`setShouldAdvance(true)` calls, each
of which triggers exactly one `onAdvance` through the effect at
lines 189-194), the `playAudio` calls issued, and the explicit
`cancelAudio()` calls made inside the reaction body. -/
structure ReactionResult where
  state : PMState
  advanceRequests : Nat
  audioPlays : List String
  cancelAudioCalls : Nat
  deriving DecidableEq, Repr

/-- `src/unnamed/part_009` line 51: `dialogueVideos` — the video list
without assets whose lower-cased name starts with `"idle"`. -/
def dialogueVideosOf (videos : List VideoFile) : List VideoFile :=
  videos.filter fun v => !(jsStartsWith (jsToLower v.name) "idle")

/-- `src/unnamed/part_009` line 52: `idleVideoUrl`. -/
def idleVideoUrlOf (videos : List VideoFile) : Option String :=
  (videos.find? fun v => jsStartsWith (jsToLower v.name) "idle").map
    VideoFile.url

/-- `src/unnamed/part_009` line 163: the play-specific-video resolution —
`videos.find(v => v.file.name.toLowerCase() ===
line.videoFilename?.toLowerCase())`.  Lower-cased, not trimmed; a
missing `videoFilename` never matches. -/
def caseInsensitiveResolve (videos : List VideoFile)
    (vfn : Option String) : Option VideoFile :=
  videos.find? fun v =>
    match vfn with
    | some f => jsToLower v.name == jsToLower f
    | none => false

/-- `src/unnamed/part_009` lines 91-187: the line-reaction effect of
`usePerformanceManager`, run once per cursor change.  The trailing
cleanup (`return () => cancelAudio()`) runs when the next reaction
replaces this one and is not part of a single reaction's output. -/
def pm9React (script : List ScriptLine) (videos : List VideoFile)
    (audioFiles : List AudioFile) (scenes : List Scene)
    (currentLineIndex : Nat) (st : PMState) : ReactionResult :=
  match script[currentLineIndex]? with
  | none => ⟨st, 0, [], 0⟩
  | some line =>
    if st.isAutoAdvancing then
      -- lines 95-106: high-priority auto-skip for the live feed
      match line with
      | .cue .END_LIVE_FEED _ _ _ =>
          ⟨{ st with
              isLiveFeedActive := false
              displayedAngieLine := none
              viewMode := .TEXT
              isAutoAdvancing := false }, 0, [], 0⟩
      | _ => ⟨st, 1, [], 0⟩
    else
      -- line 108: setIsTyping(false)
      let st := { st with isTyping := false }
      match line with
      | .dialogue c t =>
        if c == COMPUTER_CHARACTER then
          let trimmed := jsTrim t
          if trimmed == "" || isShortParenthetical trimmed then
            -- lines 116-120: empty or short parenthetical
            ⟨{ st with displayedAngieLine := none }, 1, [], 0⟩
          else if st.viewMode = ViewMode.PRERECORDED then
            -- lines 122-129
            let idx := angieDialogueIndex script scenes currentLineIndex
            match jsIndex (dialogueVideosOf videos) idx with
            | some _ =>
                ⟨{ st with
                    displayedAngieLine := none
                    videoState := ⟨.DIALOGUE, idx, none⟩ }, 0, [], 0⟩
            | none =>
                ⟨{ st with
                    displayedAngieLine := none
                    videoState := ⟨.MISSING, idx, none⟩ }, 0, [], 0⟩
          else
            -- lines 130-137: TEXT or LIVE_VIDEO
            let idx := angieDialogueIndex script scenes currentLineIndex
            match jsIndex audioFiles idx with
            | some audioToPlay =>
                ⟨{ st with isTyping := true, displayedAngieLine := some line },
                  0, [audioToPlay.url], 0⟩
            | none =>
                ⟨{ st with isTyping := true, displayedAngieLine := some line },
                  0, [], 0⟩
        else
          -- lines 138-142: a user line; wait for the user
          ⟨{ st with displayedAngieLine := none }, 0, [], 1⟩
      | .cue ck _ _ vfn =>
        -- line 146: setDisplayedAngieLine(null), then dispatch
        let st := { st with displayedAngieLine := none }
        match ck with
        | .CUT_TO_LIVE_CAMERA =>
            ⟨{ st with
                viewMode := .LIVE_VIDEO
                isLiveFeedActive := true
                isAutoAdvancing := true }, 1, [], 0⟩
        | .CUT_TO_TEXT => ⟨{ st with viewMode := .TEXT }, 1, [], 0⟩
        | .CUT_TO_PRERECORDED => ⟨{ st with viewMode := .PRERECORDED }, 1, [], 0⟩
        | .PLAY_SPECIFIC_VIDEO =>
            match caseInsensitiveResolve videos vfn with
            | some videoToPlay =>
                ⟨{ st with
                    viewMode := .PRERECORDED
                    videoState := ⟨.SPECIFIC, -1, some videoToPlay.url⟩ },
                  0, [], 0⟩
            | none =>
                ⟨{ st with
                    viewMode := .PRERECORDED
                    videoState := ⟨.MISSING, -1, none⟩ }, 0, [], 0⟩
        | _ => ⟨st, 1, [], 0⟩
      | .sceneMarker _ => ⟨{ st with displayedAngieLine := none }, 1, [], 0⟩

/-- `src/unnamed/part_009` lines 35-46: the initial manager state —
`TEXT`, `{IDLE, -1, null}`, no displayed line, not typing, live feed
inactive, not auto-advancing. -/
def pmBaseline : PMState :=
  ⟨.TEXT, ⟨.IDLE, -1, none⟩, none, false, false, false⟩

/-! ## C6 — missing dialogue video is a distinct MISSING state -/

/-- `src/unnamed/part_002` lines 97-119: what `PrerecordedVideoView`
decides to show — the current video source, whether it loops, and
whether the "MISSING DIALOGUE VIDEO" screen is shown. -/
structure PV2Selection where
  currentSrc : Option String
  isLooping : Bool
  isMissing : Bool
  deriving DecidableEq, Repr

/-- `src/unnamed/part_002` lines 95-119: source selection of
`PrerecordedVideoView`.  `dialogueVideo` is looked up only in the
`DIALOGUE` state; the `MISSING` state (and a missing asset in the
`DIALOGUE` state) shows the missing screen with no video source. -/
def pv2Select (videoState : VideoState) (dialogueVideos : List VideoFile)
    (idleVideoUrl : Option String) : PV2Selection :=
  let dialogueVideo :=
    if videoState.state = PrerecordedVideoState.DIALOGUE then
      jsIndex dialogueVideos videoState.dialogueIndex
    else none
  match videoState.state with
  | .IDLE => ⟨idleVideoUrl, true, false⟩
  | .DIALOGUE =>
      match dialogueVideo with
      | some v => ⟨some v.url, false, false⟩
      | none => ⟨none, false, true⟩
  | .SPECIFIC => ⟨videoState.specificVideoUrl, false, false⟩
  | .MISSING => ⟨none, false, true⟩

/-! ## C7 — play-specific-video resolution -/

/-- Spec-side resolution as the claim words it: the `videoFilename` is
matched against the asset names case-insensitively AND whitespace
trimmed. -/
def specTrimmedResolve (videos : List VideoFile) (f : String) :
    Option VideoFile :=
  videos.find? fun v => jsToLower (jsTrim v.name) == jsToLower (jsTrim f)

/-! ## C4 — jumpToScene resets render state to baseline -/

/-- `src/unnamed/part_007` line 53: the border effect
`'NORMAL' | 'RED' | 'FLASHING'`. -/
inductive BorderEffect where
  | NORMAL
  | RED
  | FLASHING
  deriving DecidableEq, Repr

/-- The render state owned by the part_007 `usePerformanceManager`
(`src/unnamed/part_007` lines 51-61). -/
structure PM7State where
  isTyping : Bool
  viewMode : ViewMode
  borderEffect : BorderEffect
  isLiveFeedActive : Bool
  videoState : VideoState
  displayedAngieLine : Option String
  deriving DecidableEq, Repr

/-- `src/unnamed/part_007` lines 97-104, `jumpToScene`: call
`cancelAudio()` first (the boolean result records that call), then reset
the render state; the target index itself is applied by the caller, which
owns the cursor. -/
def jumpToScene7 (_index : Nat) (st : PM7State) : Bool × PM7State :=
  (true,
    { st with
      displayedAngieLine := none
      videoState := ⟨.IDLE, -1, none⟩
      borderEffect := .NORMAL
      viewMode := .TEXT
      isLiveFeedActive := false })

/-! ## C5 — advance/regress navigation -/

/-- `src/App.tsx` (second snapshot, line 395/409): a position is
actionable when its line is Dialogue (from any character) or a Cue;
scene markers are not. -/
def isActionable : ScriptLine → Bool
  | .dialogue _ _ => true
  | .cue _ _ _ _ => true
  | .sceneMarker _ => false

/-- Whether the position `j` of the script holds an actionable line
(out-of-range positions hold none; the app keeps the cursor in range). -/
def actAt (script : List ScriptLine) (j : Nat) : Bool :=
  match script[j]? with
  | some l => isActionable l
  | none => false

/-- The forward scan of `advanceLine` (`src/App.tsx` second snapshot,
lines 392-399), written with explicit fuel (the number of remaining
positions) so that it is structurally recursive: from `i` upward, the
first in-range actionable position. -/
def advanceScanGo (script : List ScriptLine) : Nat → Nat → Option Nat
  | 0, _ => none
  | fuel + 1, i =>
      if i < script.length then
        if actAt script i then some i else advanceScanGo script fuel (i + 1)
      else none

/-- The forward scan from position `i`: the loop of `advanceLine` runs
over at most `script.length - i` positions. -/
def advanceScan (script : List ScriptLine) (i : Nat) : Option Nat :=
  advanceScanGo script (script.length - i) i

/-- `src/App.tsx` (second snapshot) lines 390-402, `advanceLine`: move to
the next actionable position after `prev`, or stay at `prev` when there
is none. -/
def advanceLine (script : List ScriptLine) (prev : Nat) : Nat :=
  match advanceScan script (prev + 1) with
  | some i => i
  | none => prev

/-- The backward scan of `regressLine` (`src/App.tsx` second snapshot,
lines 406-413): `regressScan script i` inspects positions
`i-1, i-2, ..., 0`. -/
def regressScan (script : List ScriptLine) : Nat → Option Nat
  | 0 => none
  | i + 1 => if actAt script i then some i else regressScan script i

/-- `src/App.tsx` (second snapshot) lines 404-416, `regressLine`. -/
def regressLine (script : List ScriptLine) (prev : Nat) : Nat :=
  match regressScan script prev with
  | some i => i
  | none => prev

/-! ## C8 — play-voicemail handling (part_008 manager) -/

/-- The part_008 video sub-state `{ state, dialogueIndex }`
(`src/unnamed/part_008` lines 16-19). -/
structure PM8VideoState where
  state : PrerecordedVideoState
  dialogueIndex : Int
  deriving DecidableEq, Repr

/-- Observable effects of the part_008 cue dispatch:
`playAudio(url, () => onComputerLineComplete())` (whose callback requests
exactly one advance when playback ends), the `console.warn` for a missing
voicemail asset, and an immediate `onComputerLineComplete()` call (one
advance request). -/
inductive PM8Effect where
  | playAudioOnEndComplete (url : String)
  | warnMissingVoicemail (audioIndex : Nat)
  | completeNow
  deriving DecidableEq, Repr

/-- Result of the part_008 cue dispatch. -/
structure PM8CueResult where
  viewMode : ViewMode
  videoState : PM8VideoState
  effects : List PM8Effect
  deriving DecidableEq, Repr

/-- `src/unnamed/part_008` lines 124-153: the `LineType.CUE` branch of the
line-reaction effect.  Cue kinds without a case in that snapshot leave the
state alone and emit nothing. -/
def pm8CueReact (audioFiles : List AudioFile) (viewMode : ViewMode)
    (videoState : PM8VideoState) (cueKind : CueType)
    (audioIndex : Option Nat) : PM8CueResult :=
  match cueKind with
  | .CUT_TO_LIVE_CAMERA => ⟨.LIVE_VIDEO, videoState, []⟩
  | .CUT_TO_TEXT => ⟨.TEXT, videoState, []⟩
  | .CUT_TO_PRERECORDED => ⟨.PRERECORDED, ⟨.IDLE, -1⟩, []⟩
  | .PLAY_VOICEMAIL =>
      match audioIndex with
      | some idx =>
          match audioFiles[idx]? with
          | some audioToPlay =>
              ⟨viewMode, videoState, [.playAudioOnEndComplete audioToPlay.url]⟩
          | none =>
              ⟨viewMode, videoState,
                [.warnMissingVoicemail idx, .completeNow]⟩
      | none => ⟨viewMode, videoState, [.completeNow]⟩
  | _ => ⟨viewMode, videoState, []⟩

/-- Advance requests fired immediately by a list of part_008 effects. -/
def pm8ImmediateAdvances (effects : List PM8Effect) : Nat :=
  effects.countP fun e =>
    match e with
    | .completeNow => true
    | _ => false

/-- Advance requests that fire once audio playback ends (one per
`playAudio` call whose callback is `onComputerLineComplete`). -/
def pm8OnEndAdvances (effects : List PM8Effect) : Nat :=
  effects.countP fun e =>
    match e with
    | .playAudioOnEndComplete _ => true
    | _ => false

/-- Whether the missing-voicemail warning was logged. -/
def pm8WarnLogged (effects : List PM8Effect) : Bool :=
  effects.any fun e =>
    match e with
    | .warnMissingVoicemail _ => true
    | _ => false

/-! ## C9 — the audio player's onEnd contract -/

/-- Events a playback instance of `useAudioPlayer` can receive
(`src/unnamed/part_006`): the media events wired at lines 19-30 and the
two outcomes of the `play()` promise `catch` at lines 32-38. -/
inductive AudioEvent where
  | mediaPlay
  | mediaEnded
  | mediaPause
  | mediaAbort
  | mediaError
  | playRejectedNonAbort
  | playRejectedAbort
  deriving DecidableEq, Repr

/-- Actions a handler performs. -/
inductive AudioAction where
  | setIsPlaying (b : Bool)
  | callOnEnd
  | logError
  deriving DecidableEq, Repr

/-- `src/unnamed/part_006` lines 19-38: the handlers installed by
`play(url, onEnd)` on the new `Audio` element, as the action list run
for each event.  `onended` is the only handler that invokes `onEnd`;
`onerror` and a non-abort `play()` rejection log the error and clear the
playing flag without invoking `onEnd`. -/
def audioHandle : AudioEvent → List AudioAction
  | .mediaPlay => [.setIsPlaying true]
  | .mediaEnded => [.setIsPlaying false, .callOnEnd]
  | .mediaPause => [.setIsPlaying false]
  | .mediaAbort => [.setIsPlaying false]
  | .mediaError => [.logError, .setIsPlaying false]
  | .playRejectedNonAbort => [.logError, .setIsPlaying false]
  | .playRejectedAbort => [.setIsPlaying false]

/-- How many times an event invokes the `onEnd` callback. -/
def onEndCalls (e : AudioEvent) : Nat :=
  (audioHandle e).countP fun a =>
    match a with
    | .callOnEnd => true
    | _ => false

/-- Whether an event logs an error. -/
def logsError (e : AudioEvent) : Bool :=
  (audioHandle e).any fun a =>
    match a with
    | .logError => true
    | _ => false

/-- The entry of `play(url, onEnd)` (`src/unnamed/part_006` lines 7-17):
with a falsy (empty) url the call returns immediately; otherwise any
previous instance is paused and its source released
(`stoppedPrevious`), and a new playback instance is started. -/
structure PlayEntry where
  stoppedPrevious : Bool
  started : Bool
  deriving DecidableEq, Repr

/-- The entry behaviour of `play` as a function of whether a previous
instance exists and of the url. -/
def playEntry (hasPrevious : Bool) (url : String) : PlayEntry :=
  if url == "" then ⟨false, false⟩
  else ⟨hasPrevious, true⟩

/-! ## C10 — the script parser and the ANGLE/ANGIE typo correction -/

/-- JS `scriptText.split(/\r?\n/)` (`src/services/scriptParser.ts`
line 69): split on `"\r\n"` or `"\n"`, preferring the two-character
separator. -/
def jsRegexSplitLines : List Char → List (List Char)
  | [] => [[]]
  | '\r' :: '\n' :: cs => [] :: jsRegexSplitLines cs
  | '\n' :: cs => [] :: jsRegexSplitLines cs
  | c :: cs =>
      match jsRegexSplitLines cs with
      | r :: rs => (c :: r) :: rs
      | [] => [[c]]

/-- `[a-zA-Z\s().]` — the character class of the dialogue speaker capture
(`src/services/scriptParser.ts` line 100). -/
def isNameChar (c : Char) : Bool :=
  (('a' ≤ c && c ≤ 'z') || ('A' ≤ c && c ≤ 'Z')) || Char.isWhitespace c ||
    c = '(' || c = ')' || c = '.'

/-- The dialogue-line regex `^\s*([a-zA-Z\s().]+):\s*(.+)$` of
`src/services/scriptParser.ts` line 100, applied to the already-trimmed
line (so the leading `\s*` consumes nothing): the maximal run of
speaker characters must be non-empty and be followed by `:` and at least
one further character.  The text component returned here is everything
after the colon; the `\s*` the regex strips from the capture is
immaterial because every consumer applies `.trim()` to the capture. -/
def dialogueMatch (s : String) : Option (String × String) :=
  let run := s.data.takeWhile isNameChar
  let rest := s.data.dropWhile isNameChar
  match rest with
  | ':' :: rest2 =>
      if run.isEmpty || rest2.isEmpty then none
      else some (⟨run⟩, ⟨rest2⟩)
  | _ => none

/-- First alternative of the scene regex `/^(SCENE\s+.+|^\d+\.?$)/i`
(`src/services/scriptParser.ts` line 79): case-insensitive `SCENE`, at
least one whitespace character, at least one further character. -/
def sceneAlt1 (s : String) : Bool :=
  match (jsToLower s).data with
  | 's' :: 'c' :: 'e' :: 'n' :: 'e' :: c :: _ :: _ => Char.isWhitespace c
  | _ => false

/-- Second alternative `^\d+\.?$`: the whole line is digits optionally
followed by a single dot. -/
def sceneAlt2 (s : String) : Bool :=
  let digits := s.data.takeWhile Char.isDigit
  let rest := s.data.dropWhile Char.isDigit
  decide (1 ≤ digits.length) && (rest.isEmpty || rest == ['.'])

/-- The scene-marker test of `src/services/scriptParser.ts` lines 79-85. -/
def isSceneLine (s : String) : Bool :=
  sceneAlt1 s || sceneAlt2 s

/-- `parseInt(digits, 10)` on a digit run. -/
def digitsToNat (ds : List Char) : Nat :=
  ds.foldl (fun n c => n * 10 + (c.toNat - '0'.toNat)) 0

/-- Matching `\(voicemail:\s*(\d+)\)` at the head of the character
list. -/
def vmMatchAt (cs : List Char) : Option Nat :=
  match cs with
  | '(' :: 'v' :: 'o' :: 'i' :: 'c' :: 'e' :: 'm' :: 'a' :: 'i' :: 'l'
      :: ':' :: rest =>
      let afterWs := rest.dropWhile Char.isWhitespace
      let digits := afterWs.takeWhile Char.isDigit
      let rest2 := afterWs.dropWhile Char.isDigit
      if 1 ≤ digits.length then
        match rest2 with
        | ')' :: _ => some (digitsToNat digits)
        | _ => none
      else none
  | _ => none

/-- The unanchored regex search `cleanText.match(/\(voicemail:\s*(\d+)\)/)`
(`src/services/scriptParser.ts` line 56): leftmost match. -/
def vmSearch : List Char → Option Nat
  | [] => none
  | c :: cs =>
      match vmMatchAt (c :: cs) with
      | some n => some n
      | none => vmSearch cs

/-- The result record of `parseCue`. -/
structure ParsedCue where
  cue : CueType
  audioIndex : Option Nat
  videoFilename : Option String
  deriving DecidableEq, Repr

/-- `src/services/scriptParser.ts` lines 5-66 (first snapshot),
`parseCue`: exact matches first, then the `(video: ...)` regex (which
matches when the text starts with `(video:`, ends with `)` and has a
non-empty body in between — the body, trimmed, is the filename), then
the substring checks in source order, then the voicemail match (whose
1-based index is decremented and dropped when the result is negative),
else UNKNOWN. -/
def parseCue (text : String) : ParsedCue :=
  let cleanText := jsTrim (jsToLower text)
  if cleanText == "(livefeed)" then ⟨.CUT_TO_LIVE_CAMERA, none, none⟩
  else if cleanText == "(/livefeed)" then ⟨.END_LIVE_FEED, none, none⟩
  else if cleanText == "(blackout)" then ⟨.BLACKOUT, none, none⟩
  else if cleanText == "(red screen)" then ⟨.RED_SCREEN, none, none⟩
  else if cleanText == "(flashing screen)" then ⟨.FLASHING_SCREEN, none, none⟩
  else if cleanText == "(normal screen)" then ⟨.NORMAL_SCREEN, none, none⟩
  else if jsStartsWith cleanText "(video:" && jsEndsWith cleanText ")" &&
      decide (9 ≤ jsLength cleanText) then
    ⟨.PLAY_SPECIFIC_VIDEO, none,
      some (jsTrim ⟨(cleanText.data.drop 7).dropLast⟩)⟩
  else if jsIncludes cleanText "cut to camera" ||
      jsIncludes cleanText "cut to live" ||
      jsIncludes cleanText "cut to live feed" then
    ⟨.CUT_TO_LIVE_CAMERA, none, none⟩
  else if jsIncludes cleanText "cut to text" then ⟨.CUT_TO_TEXT, none, none⟩
  else if jsIncludes cleanText "cut to prerecorded" ||
      jsIncludes cleanText "cut to video" then
    ⟨.CUT_TO_PRERECORDED, none, none⟩
  else if jsIncludes cleanText "show ai code" then ⟨.SHOW_AI_CODE, none, none⟩
  else if jsIncludes cleanText "hide ai code" then ⟨.HIDE_AI_CODE, none, none⟩
  else if jsIncludes cleanText "no error" then ⟨.NO_ERROR, none, none⟩
  else if jsIncludes cleanText "error" then ⟨.TRIGGER_ERROR, none, none⟩
  else if jsStartsWith cleanText "(voicemail:" then
    match vmSearch cleanText.data with
    | some n => if 1 ≤ n then ⟨.PLAY_VOICEMAIL, some (n - 1), none⟩
        else ⟨.UNKNOWN, none, none⟩
    | none => ⟨.UNKNOWN, none, none⟩
  else ⟨.UNKNOWN, none, none⟩

/-- The loop state of `parseScript` (`src/services/scriptParser.ts`
lines 70-72): the emitted lines (kept reversed here, most recent first,
so that the parenthetical continuation can extend the last line), the
last speaker, and the open-parenthetical flag. -/
structure ParseState where
  acc : List ScriptLine
  lastCharacter : Option String
  isInsideParenthetical : Bool
  deriving DecidableEq, Repr

/-- One iteration of the `parseScript` loop
(`src/services/scriptParser.ts` lines 74-144, first snapshot). -/
def parseLine (st : ParseState) (line : String) : ParseState :=
  let trimmedLine := jsTrim line
  if trimmedLine == "" then st
  else if isSceneLine trimmedLine then
    ⟨.sceneMarker trimmedLine :: st.acc, none, false⟩
  else
    let parsedCue := parseCue trimmedLine
    if parsedCue.cue ≠ CueType.UNKNOWN then
      ⟨.cue parsedCue.cue trimmedLine parsedCue.audioIndex
          parsedCue.videoFilename :: st.acc, none, false⟩
    else
      match dialogueMatch trimmedLine with
      | some (character, text) =>
          let charUpper0 := jsToUpper (jsTrim character)
          let charUpper := if charUpper0 == "ANGLE" then "ANGIE"
            else charUpper0
          let inParen := jsStartsWith (jsTrim text) "(" &&
            !(jsEndsWith (jsTrim text) ")")
          ⟨.dialogue charUpper (jsTrim text) :: st.acc, some charUpper,
            inParen⟩
      | none =>
          match st.lastCharacter with
          | some lc =>
              if st.isInsideParenthetical then
                match st.acc with
                | .dialogue c0 t0 :: rest =>
                    ⟨.dialogue c0 (t0 ++ " " ++ trimmedLine) :: rest,
                      st.lastCharacter,
                      if jsEndsWith trimmedLine ")" then false
                        else st.isInsideParenthetical⟩
                | _ => st
              else
                ⟨.dialogue lc trimmedLine :: st.acc, st.lastCharacter,
                  jsStartsWith trimmedLine "(" &&
                    !(jsEndsWith trimmedLine ")")⟩
          | none => ⟨.dialogue "USER" trimmedLine :: st.acc, none, false⟩

/-- `src/services/scriptParser.ts` lines 68-147 (first snapshot),
`parseScript`. -/
def parseScript (scriptText : String) : List ScriptLine :=
  ((jsRegexSplitLines scriptText.data).foldl
    (fun st l => parseLine st ⟨l⟩) ⟨[], none, false⟩).acc.reverse

/-- A script line is not attributed to the typo speaker `"ANGLE"`. -/
def NotAngleLine (l : ScriptLine) : Prop :=
  ∀ c t, l = ScriptLine.dialogue c t → c ≠ "ANGLE"

/-- Parser-state invariant: no emitted dialogue line and no remembered
speaker is `"ANGLE"`. -/
def NoAngleState (st : ParseState) : Prop :=
  (∀ l ∈ st.acc, NotAngleLine l) ∧ st.lastCharacter ≠ some "ANGLE"


lemma isLastMarker_unique {script : List ScriptLine} {cur : Nat}
    {r₁ r₂ : Option Nat} (h₁ : IsLastMarker script cur r₁)
    (h₂ : IsLastMarker script cur r₂) : r₁ = r₂ := by
  match r₁, r₂ with
  | none, none => rfl
  | some j, none =>
      obtain ⟨mj, lej, -⟩ := h₁
      exact absurd lej (h₂ j mj)
  | none, some j =>
      obtain ⟨mj, lej, -⟩ := h₂
      exact absurd lej (h₁ j mj)
  | some j₁, some j₂ =>
      obtain ⟨m₁, le₁, max₁⟩ := h₁
      obtain ⟨m₂, le₂, max₂⟩ := h₂
      exact congrArg some (Nat.le_antisymm (max₂ j₁ m₁ le₁) (max₁ j₂ m₂ le₂))

lemma specLastMarker_isLast (script : List ScriptLine) (cur : Nat) :
    IsLastMarker script cur (specLastMarker script cur) := by
  induction cur with
  | zero =>
      simp only [specLastMarker]
      by_cases h : markerAt script 0 = true
      · simp only [h, if_true]
        exact ⟨h, Nat.le_refl 0, fun k _ hk => hk⟩
      · simp only [h, if_false]
        intro k hk hk0
        have hk' : k = 0 := Nat.le_zero.mp hk0
        rw [hk'] at hk
        exact h hk
  | succ n ih =>
      simp only [specLastMarker]
      by_cases h : markerAt script (n + 1) = true
      · simp only [h, if_true]
        exact ⟨h, Nat.le_refl _, fun k _ hk => hk⟩
      · simp only [h, if_false]
        match hr : specLastMarker script n with
        | some j =>
            rw [hr] at ih
            obtain ⟨mj, lej, maxj⟩ := ih
            refine ⟨mj, Nat.le_succ_of_le lej, ?_⟩
            intro k mk lek
            rcases Nat.lt_or_ge k (n + 1) with hlt | hge
            · exact maxj k mk (Nat.lt_succ_iff.mp hlt)
            · have hk' : k = n + 1 := Nat.le_antisymm lek hge
              rw [hk'] at mk
              exact absurd mk h
        | none =>
            rw [hr] at ih
            intro k mk lek
            rcases Nat.lt_or_ge k (n + 1) with hlt | hge
            · exact ih k mk (Nat.lt_succ_iff.mp hlt)
            · have hk' : k = n + 1 := Nat.le_antisymm lek hge
              rw [hk'] at mk
              exact h mk

lemma enumFrom_filterMap_scenes (ls : List ScriptLine) (off : Nat) :
    ((List.enumFrom off ls).filterMap fun p =>
        match p.2 with
        | .sceneMarker n => some (⟨n, p.1⟩ : Scene)
        | _ => none) = scenesAux off ls := by
  induction ls generalizing off with
  | nil => rfl
  | cons l ls ih =>
      rw [List.enumFrom_cons, List.filterMap_cons]
      match l with
      | .sceneMarker n => simp only [scenesAux, ih, List.cons_append,
          List.nil_append]
      | .dialogue c t => simp only [scenesAux, ih, List.nil_append]
      | .cue c o a v => simp only [scenesAux, ih, List.nil_append]

lemma scenesOf_eq_aux (script : List ScriptLine) :
    scenesOf script = scenesAux 0 script := by
  rw [scenesOf, List.enum]
  exact enumFrom_filterMap_scenes script 0

lemma scenes_rev_find_eq (ls : List ScriptLine) (off cur : Nat) :
    ((scenesAux off ls).reverse.find? fun s =>
        decide (s.index ≤ cur)).map Scene.index = lastMarkerIdx ls off cur := by
  induction ls generalizing off with
  | nil => rfl
  | cons l ls ih =>
      match l with
      | .sceneMarker n =>
          simp only [scenesAux, lastMarkerIdx, List.singleton_append,
            List.reverse_cons, List.find?_append]
          rw [← ih (off + 1)]
          cases hf : (scenesAux (off + 1) ls).reverse.find? fun s =>
              decide (s.index ≤ cur) with
          | some s => simp [Option.or]
          | none =>
              simp only [Option.or, Option.map_none]
              by_cases h : off ≤ cur
              · simp [List.find?, h]
              · simp [List.find?, h]
      | .dialogue c t =>
          rw [show scenesAux off (ScriptLine.dialogue c t :: ls)
              = scenesAux (off + 1) ls from rfl]
          simp only [lastMarkerIdx]
          rw [ih (off + 1)]
          cases lastMarkerIdx ls (off + 1) cur <;> rfl
      | .cue c o a v =>
          rw [show scenesAux off (ScriptLine.cue c o a v :: ls)
              = scenesAux (off + 1) ls from rfl]
          simp only [lastMarkerIdx]
          rw [ih (off + 1)]
          cases lastMarkerIdx ls (off + 1) cur <;> rfl

lemma markerAt_cons_succ (l : ScriptLine) (ls : List ScriptLine) (m : Nat) :
    markerAt (l :: ls) (m + 1) = markerAt ls m := rfl

lemma lastMarkerIdx_isLast (ls : List ScriptLine) (off cur : Nat) :
    (∀ j, lastMarkerIdx ls off cur = some j →
        off ≤ j ∧ j ≤ cur ∧ markerAt ls (j - off) = true ∧
          ∀ k, off ≤ k → markerAt ls (k - off) = true → k ≤ cur → k ≤ j) ∧
      (lastMarkerIdx ls off cur = none →
        ∀ k, off ≤ k → markerAt ls (k - off) = true → ¬ k ≤ cur) := by
  induction ls generalizing off with
  | nil =>
      refine ⟨fun j hj => by simp [lastMarkerIdx] at hj, fun _ k _ hk => ?_⟩
      simp [markerAt, List.get?] at hk
  | cons l ls ih =>
      obtain ⟨ihSome, ihNone⟩ := ih (off + 1)
      constructor
      · intro j hj
        simp only [lastMarkerIdx] at hj
        cases hr : lastMarkerIdx ls (off + 1) cur with
        | some j' =>
            rw [hr] at hj
            simp only [Option.some.injEq] at hj
            rw [← hj]
            obtain ⟨hoff, hcur, hmk, hmax⟩ := ihSome j' hr
            refine ⟨Nat.le_of_succ_le hoff, hcur, ?_, ?_⟩
            · have hj' : j' - off = (j' - (off + 1)) + 1 := by omega
              rw [hj', markerAt_cons_succ]
              exact hmk
            · intro k hk hmk' hkc
              rcases Nat.eq_or_lt_of_le hk with heq | hlt
              · omega
              · have hk1 : off + 1 ≤ k := hlt
                have hko : k - off = (k - (off + 1)) + 1 := by omega
                rw [hko, markerAt_cons_succ] at hmk'
                exact hmax k hk1 hmk' hkc
        | none =>
            rw [hr] at hj
            match l with
            | .sceneMarker n =>
                simp only at hj
                by_cases h : off ≤ cur
                · rw [if_pos h] at hj
                  simp only [Option.some.injEq] at hj
                  subst hj
                  refine ⟨Nat.le_refl _, h, by simp [markerAt], ?_⟩
                  intro k hk hmk' hkc
                  rcases Nat.eq_or_lt_of_le hk with heq | hlt
                  · omega
                  · have hk1 : off + 1 ≤ k := hlt
                    have : k - off = (k - (off + 1)) + 1 := by omega
                    rw [this, markerAt_cons_succ] at hmk'
                    exact absurd hkc (ihNone hr k hk1 hmk')
                · rw [if_neg h] at hj
                  exact absurd hj (by simp)
            | .dialogue c t => simp at hj
            | .cue c o a v => simp at hj
      · intro hn k hk hmk hkc
        simp only [lastMarkerIdx] at hn
        cases hr : lastMarkerIdx ls (off + 1) cur with
        | some j' => rw [hr] at hn; simp at hn
        | none =>
            rw [hr] at hn
            rcases Nat.eq_or_lt_of_le hk with heq | hlt
            · subst heq
              simp only [Nat.sub_self] at hmk
              match l, hmk with
              | .sceneMarker n, hmk =>
                  rw [if_pos hkc] at hn
                  simp at hn
            · have hk1 : off + 1 ≤ k := hlt
              have : k - off = (k - (off + 1)) + 1 := by omega
              rw [this, markerAt_cons_succ] at hmk
              exact ihNone hr k hk1 hmk hkc

lemma lastMarkerIdx_eq_spec (script : List ScriptLine) (cur : Nat) :
    lastMarkerIdx script 0 cur = specLastMarker script cur := by
  have h := lastMarkerIdx_isLast script 0 cur
  have h1 : IsLastMarker script cur (lastMarkerIdx script 0 cur) := by
    cases hr : lastMarkerIdx script 0 cur with
    | some j =>
        obtain ⟨-, hcur, hmk, hmax⟩ := h.1 j hr
        simp only [Nat.sub_zero] at hmk
        refine ⟨hmk, hcur, ?_⟩
        intro k mk lek
        exact hmax k (Nat.zero_le k) (by simpa using mk) lek
    | none =>
        intro k mk lek
        exact h.2 hr k (Nat.zero_le k) (by simpa using mk) lek
  exact isLastMarker_unique h1 (specLastMarker_isLast script cur)

lemma specSceneStart_le (script : List ScriptLine) (cur : Nat) :
    specSceneStart script cur ≤ cur := by
  rw [specSceneStart]
  cases hr : specLastMarker script cur with
  | some j =>
      have := specLastMarker_isLast script cur
      rw [hr] at this
      simpa using this.2.1
  | none => simp

lemma foldl_count_aux (p : Nat → Bool) (l : List Nat) (init : Int) :
    l.foldl (fun c i => if p i then c + 1 else c) init = init + l.countP p := by
  induction l generalizing init with
  | nil => simp
  | cons a l ih =>
      simp only [List.foldl_cons, List.countP_cons]
      by_cases h : p a = true
      · rw [if_pos h, ih, if_pos h]
        push_cast
        ring
      · rw [if_neg h, ih, if_neg h]
        push_cast
        ring

lemma count_fold_final (script : List ScriptLine) (S cur : Nat)
    (hS : S ≤ cur) (h : countableAt script cur = true) :
    (List.range' S (cur + 1 - S)).foldl
        (fun count i => if countableAt script i then count + 1 else count)
        (-1 : Int)
      = ((List.range' S (cur - S)).countP fun i => countableAt script i : Nat) := by
  rw [foldl_count_aux]
  have h1 : cur + 1 - S = (cur - S) + 1 := by omega
  rw [h1, List.range'_concat, List.countP_append]
  have h2 : S + 1 * (cur - S) = cur := by omega
  rw [h2]
  have h3 : List.countP (fun i => countableAt script i) [cur] = 1 := by
    simp [List.countP_cons, h]
  rw [h3]
  push_cast
  ring

/-- C1: for every script and every cursor position holding a countable
computer dialogue line, the computer-line ordinal computed by
`angieDialogueIndex` (src/unnamed/part_009 lines 67-85, over the scene
list derived from the script) equals the zero-based count of countable
computer dialogue lines from the start of the scene containing the
cursor (position 0 when no scene marker precedes it) up to and including
the cursor, with empty and short-parenthetical lines excluded. -/
theorem angieDialogueIndex_is_scene_relative_ordinal
    (script : List ScriptLine) (cur : Nat)
    (h : countableAt script cur = true) :
    angieDialogueIndex script (scenesOf script) cur =
      (specComputerLineOrdinal script cur : Int) := by
  have hfind : ((scenesOf script).reverse.find? fun s =>
      decide (s.index ≤ cur)).map Scene.index = specLastMarker script cur := by
    rw [scenesOf_eq_aux, scenes_rev_find_eq, lastMarkerIdx_eq_spec]
  simp only [angieDialogueIndex, specComputerLineOrdinal]
  cases hf : (scenesOf script).reverse.find? fun s =>
      decide (s.index ≤ cur) with
  | some s =>
      rw [hf] at hfind
      have hstart : specSceneStart script cur = s.index := by
        rw [specSceneStart, ← hfind]
        rfl
      rw [hstart]
      exact count_fold_final script s.index cur
        (hstart ▸ specSceneStart_le script cur) h
  | none =>
      rw [hf] at hfind
      have hstart : specSceneStart script cur = 0 := by
        rw [specSceneStart, ← hfind]
        rfl
      rw [hstart]
      exact count_fold_final script 0 cur (Nat.zero_le cur) h

/-- C1 witness: the spec's scenario D — a scene marker, then the short
parenthetical `"(pause)"`, then a real ANGIE line; the real line at
position 2 resolves to ordinal 0, not 1. -/
theorem angieDialogueIndex_witness :
    countableAt [ScriptLine.sceneMarker "SCENE 1",
        ScriptLine.dialogue "ANGIE" "(pause)",
        ScriptLine.dialogue "ANGIE" "I remember."] 2 = true ∧
      angieDialogueIndex [ScriptLine.sceneMarker "SCENE 1",
          ScriptLine.dialogue "ANGIE" "(pause)",
          ScriptLine.dialogue "ANGIE" "I remember."]
        (scenesOf [ScriptLine.sceneMarker "SCENE 1",
          ScriptLine.dialogue "ANGIE" "(pause)",
          ScriptLine.dialogue "ANGIE" "I remember."]) 2 = 0 ∧
      specComputerLineOrdinal [ScriptLine.sceneMarker "SCENE 1",
        ScriptLine.dialogue "ANGIE" "(pause)",
        ScriptLine.dialogue "ANGIE" "I remember."] 2 = 0 := by
  refine ⟨by decide, ?_, by decide⟩
  rw [angieDialogueIndex_is_scene_relative_ordinal _ 2 (by decide)]
  decide

/-- C2: whenever the cursor arrives at a cue handled instantaneously
(cut-to-text, cut-to-prerecorded, the screen effects, show/hide-AI-code,
trigger/clear-error, or an unrecognized cue) or at a scene marker, the
part_009 reaction emits exactly one advance request — never zero, never
two; in particular an unknown cue always auto-advances. -/
theorem pm9_instantaneous_exactly_one_advance
    (script : List ScriptLine) (videos : List VideoFile)
    (audioFiles : List AudioFile) (scenes : List Scene)
    (cur : Nat) (st : PMState)
    (h : (∃ k o a v, script[cur]? = some (.cue k o a v) ∧
            k ∈ [CueType.CUT_TO_TEXT, CueType.CUT_TO_PRERECORDED,
              CueType.RED_SCREEN, CueType.FLASHING_SCREEN,
              CueType.NORMAL_SCREEN, CueType.BLACKOUT,
              CueType.SHOW_AI_CODE, CueType.HIDE_AI_CODE,
              CueType.TRIGGER_ERROR, CueType.NO_ERROR, CueType.UNKNOWN]) ∨
          (∃ n, script[cur]? = some (.sceneMarker n))) :
    (pm9React script videos audioFiles scenes cur st).advanceRequests = 1 := by
  rcases h with ⟨k, o, a, v, hline, hk⟩ | ⟨n, hline⟩
  · by_cases hA : st.isAutoAdvancing
    · fin_cases hk <;> simp [pm9React, hline, hA]
    · fin_cases hk <;> simp [pm9React, hline, hA]
  · by_cases hA : st.isAutoAdvancing
    · simp [pm9React, hline, hA]
    · simp [pm9React, hline, hA]

/-- C2 witness: an unrecognized cue produces exactly one advance
request. -/
theorem pm9_instantaneous_exactly_one_advance_witness :
    (pm9React [ScriptLine.cue CueType.UNKNOWN "(mystery cue)" none none]
        [] [] [] 0 pmBaseline).advanceRequests = 1 :=
  pm9_instantaneous_exactly_one_advance _ _ _ _ _ _
    (Or.inl ⟨CueType.UNKNOWN, "(mystery cue)", none, none, rfl, by decide⟩)

/-- C3: a computer dialogue line whose trimmed text is empty or a short
parenthetical clears the displayed computer line, starts no audio, no
video (the video sub-state is untouched), no typing animation, and
requests exactly one auto-advance (part_009 lines 112-120; the reaction
is the normal one, i.e. the live-feed auto-skip mode is off). -/
theorem pm9_trivial_computer_line_skipped
    (script : List ScriptLine) (videos : List VideoFile)
    (audioFiles : List AudioFile) (scenes : List Scene)
    (cur : Nat) (st : PMState) (c t : String)
    (hline : script[cur]? = some (.dialogue c t))
    (hc : c = COMPUTER_CHARACTER)
    (ht : jsTrim t = "" ∨ isShortParenthetical (jsTrim t) = true)
    (hA : st.isAutoAdvancing = false) :
    (pm9React script videos audioFiles scenes cur st).state.displayedAngieLine
        = none ∧
      (pm9React script videos audioFiles scenes cur st).advanceRequests = 1 ∧
      (pm9React script videos audioFiles scenes cur st).audioPlays = [] ∧
      (pm9React script videos audioFiles scenes cur st).state.isTyping = false ∧
      (pm9React script videos audioFiles scenes cur st).state.videoState
        = st.videoState := by
  subst hc
  rcases ht with ht | ht
  · simp [pm9React, hline, hA, ht]
  · simp [pm9React, hline, hA, ht]

/-- C3 witness: the `"(pause)"` line from the spec's scenario D. -/
theorem pm9_trivial_computer_line_skipped_witness :
    (pm9React [ScriptLine.dialogue "ANGIE" "(pause)"] [] [] [] 0
        pmBaseline).state.displayedAngieLine = none ∧
      (pm9React [ScriptLine.dialogue "ANGIE" "(pause)"] [] [] [] 0
        pmBaseline).advanceRequests = 1 ∧
      (pm9React [ScriptLine.dialogue "ANGIE" "(pause)"] [] [] [] 0
        pmBaseline).audioPlays = [] ∧
      (pm9React [ScriptLine.dialogue "ANGIE" "(pause)"] [] [] [] 0
        pmBaseline).state.isTyping = false ∧
      (pm9React [ScriptLine.dialogue "ANGIE" "(pause)"] [] [] [] 0
        pmBaseline).state.videoState = pmBaseline.videoState :=
  pm9_trivial_computer_line_skipped _ _ _ _ _ _ _ _ rfl rfl
    (Or.inr (by decide)) rfl

/-- C6: a non-trivial computer dialogue line reached in PRERECORDED mode
with no dialogue-video asset at the computer-line ordinal puts the
sub-state into the distinct `MISSING` state, and the part_002 view then
shows the missing screen with no video source at all — in particular it
never falls back to the idle loop video. -/
theorem pm9_missing_dialogue_video_is_visible
    (script : List ScriptLine) (videos : List VideoFile)
    (audioFiles : List AudioFile) (scenes : List Scene)
    (cur : Nat) (st : PMState) (c t : String)
    (hline : script[cur]? = some (.dialogue c t))
    (hc : c = COMPUTER_CHARACTER)
    (ht1 : ¬ jsTrim t = "")
    (ht2 : isShortParenthetical (jsTrim t) = false)
    (hvm : st.viewMode = ViewMode.PRERECORDED)
    (hA : st.isAutoAdvancing = false)
    (hmiss : jsIndex (dialogueVideosOf videos)
        (angieDialogueIndex script scenes cur) = none) :
    (pm9React script videos audioFiles scenes cur st).state.videoState.state
        = PrerecordedVideoState.MISSING ∧
      pv2Select
          (pm9React script videos audioFiles scenes cur st).state.videoState
          (dialogueVideosOf videos) (idleVideoUrlOf videos)
        = ⟨none, false, true⟩ := by
  subst hc
  have ht1' : (jsTrim t == "") = false := beq_eq_false_iff_ne.mpr ht1
  simp [pm9React, hline, hA, ht1', ht2, hvm, hmiss, pv2Select]

/-- C6 witness: one real ANGIE line in PRERECORDED mode with an empty
video list. -/
theorem pm9_missing_dialogue_video_is_visible_witness :
    (pm9React [ScriptLine.dialogue "ANGIE" "Hello."] [] [] [] 0
        { pmBaseline with viewMode := ViewMode.PRERECORDED
          }).state.videoState.state = PrerecordedVideoState.MISSING ∧
      pv2Select
          (pm9React [ScriptLine.dialogue "ANGIE" "Hello."] [] [] [] 0
            { pmBaseline with viewMode := ViewMode.PRERECORDED
              }).state.videoState
          (dialogueVideosOf []) (idleVideoUrlOf [])
        = ⟨none, false, true⟩ :=
  pm9_missing_dialogue_video_is_visible _ _ _ _ _ _ _ _ rfl rfl
    (by decide) (by decide) rfl rfl (by decide)

/-- C7 counterexample: with a single video asset whose file name carries a
trailing space (`"intro.mp4 "`) and a cue naming `"intro.mp4"`, the
trimmed case-insensitive resolution demanded by the claim finds the
asset — so the claim requires sub-state `SPECIFIC` with that asset's
URL — but the part_009 reaction (which compares lower-cased names
without trimming, line 163) fails to match and enters `MISSING`
instead. -/
theorem pm9_specific_video_trimming_counterexample :
    specTrimmedResolve [⟨"intro.mp4 ", "blob:intro"⟩] "intro.mp4"
        = some ⟨"intro.mp4 ", "blob:intro"⟩ ∧
      (pm9React
          [ScriptLine.cue CueType.PLAY_SPECIFIC_VIDEO "(video: intro.mp4)"
            none (some "intro.mp4")]
          [⟨"intro.mp4 ", "blob:intro"⟩] [] [] 0 pmBaseline).state.videoState
        = ⟨PrerecordedVideoState.MISSING, -1, none⟩ ∧
      PrerecordedVideoState.MISSING ≠ PrerecordedVideoState.SPECIFIC :=
  ⟨by decide, by decide, by decide⟩

/-- C7 (amended): the `videoFilename` is resolved against the asset list
case-insensitively on the exact, untrimmed names (the parser supplies an
already lower-cased and trimmed filename, but asset names are compared
as-is); if a match is found, the view mode becomes PRERECORDED with
sub-state SPECIFIC carrying that asset's URL and no auto-advance is
requested; if no match is found, the sub-state becomes MISSING with view
mode PRERECORDED and no auto-advance is requested. -/
theorem pm9_play_specific_video_resolution
    (script : List ScriptLine) (videos : List VideoFile)
    (audioFiles : List AudioFile) (scenes : List Scene)
    (cur : Nat) (st : PMState) (o : String) (a : Option Nat)
    (vfn : Option String)
    (hline : script[cur]? = some (.cue .PLAY_SPECIFIC_VIDEO o a vfn))
    (hA : st.isAutoAdvancing = false) :
    (∀ v, caseInsensitiveResolve videos vfn = some v →
        (pm9React script videos audioFiles scenes cur st).state.viewMode
            = ViewMode.PRERECORDED ∧
          (pm9React script videos audioFiles scenes cur st).state.videoState
            = ⟨PrerecordedVideoState.SPECIFIC, -1, some v.url⟩ ∧
          (pm9React script videos audioFiles scenes cur st).advanceRequests
            = 0) ∧
      (caseInsensitiveResolve videos vfn = none →
        (pm9React script videos audioFiles scenes cur st).state.viewMode
            = ViewMode.PRERECORDED ∧
          (pm9React script videos audioFiles scenes cur st).state.videoState
            = ⟨PrerecordedVideoState.MISSING, -1, none⟩ ∧
          (pm9React script videos audioFiles scenes cur st).advanceRequests
            = 0) := by
  constructor
  · intro v hv
    simp [pm9React, hline, hA, hv]
  · intro hv
    simp [pm9React, hline, hA, hv]

/-- C7 witness: a cue whose filename matches an asset up to case is
resolved to SPECIFIC with the asset's URL; the not-found branch is
exercised at a different filename. -/
theorem pm9_play_specific_video_resolution_witness :
    ((pm9React
        [ScriptLine.cue CueType.PLAY_SPECIFIC_VIDEO "(video: intro.mp4)"
          none (some "intro.mp4")]
        [⟨"Intro.MP4", "blob:u1"⟩] [] [] 0 pmBaseline).state.viewMode
          = ViewMode.PRERECORDED ∧
        (pm9React
          [ScriptLine.cue CueType.PLAY_SPECIFIC_VIDEO "(video: intro.mp4)"
            none (some "intro.mp4")]
          [⟨"Intro.MP4", "blob:u1"⟩] [] [] 0 pmBaseline).state.videoState
          = ⟨PrerecordedVideoState.SPECIFIC, -1, some "blob:u1"⟩ ∧
        (pm9React
          [ScriptLine.cue CueType.PLAY_SPECIFIC_VIDEO "(video: intro.mp4)"
            none (some "intro.mp4")]
          [⟨"Intro.MP4", "blob:u1"⟩] [] [] 0 pmBaseline).advanceRequests
          = 0) :=
  (pm9_play_specific_video_resolution _ _ _ _ _ _ _ _ _ rfl rfl).1
    ⟨"Intro.MP4", "blob:u1"⟩ (by decide)

/-- C4: for every scene index, `jumpToScene` cancels any in-flight audio
playback (the cancel call is recorded unconditionally, before anything
else) and resets the render state to the deterministic baseline:
render mode TEXT, prerecorded sub-state IDLE, border effect NORMAL,
current computer line null, live feed inactive. -/
theorem jumpToScene7_cancels_and_resets (index : Nat) (st : PM7State) :
    (jumpToScene7 index st).1 = true ∧
      (jumpToScene7 index st).2.viewMode = ViewMode.TEXT ∧
      (jumpToScene7 index st).2.videoState
        = ⟨PrerecordedVideoState.IDLE, -1, none⟩ ∧
      (jumpToScene7 index st).2.borderEffect = BorderEffect.NORMAL ∧
      (jumpToScene7 index st).2.displayedAngieLine = none ∧
      (jumpToScene7 index st).2.isLiveFeedActive = false :=
  ⟨rfl, rfl, rfl, rfl, rfl, rfl⟩

lemma advanceScanGo_none_spec (script : List ScriptLine) :
    ∀ fuel i, script.length ≤ i + fuel →
      advanceScanGo script fuel i = none →
      ∀ k, i ≤ k → actAt script k = false := by
  intro fuel
  induction fuel with
  | zero =>
      intro i hfuel _ k hk
      have hlen : script.length ≤ k := by omega
      simp [actAt, List.getElem?_eq_none hlen]
  | succ fuel ih =>
      intro i hfuel hnone k hk
      rw [advanceScanGo] at hnone
      by_cases hi : i < script.length
      · rw [if_pos hi] at hnone
        by_cases ha : actAt script i = true
        · rw [if_pos ha] at hnone
          exact absurd hnone (by simp)
        · rw [if_neg ha] at hnone
          rcases Nat.eq_or_lt_of_le hk with heq | hlt
          · rw [← heq]
            simpa using ha
          · exact ih (i + 1) (by omega) hnone k hlt
      · have hlen : script.length ≤ k := by omega
        simp [actAt, List.getElem?_eq_none hlen]

lemma advanceScanGo_some_spec (script : List ScriptLine) :
    ∀ fuel i r, advanceScanGo script fuel i = some r →
      i ≤ r ∧ actAt script r = true ∧
        ∀ k, i ≤ k → k < r → actAt script k = false := by
  intro fuel
  induction fuel with
  | zero =>
      intro i r hr
      exact absurd hr (by simp [advanceScanGo])
  | succ fuel ih =>
      intro i r hr
      rw [advanceScanGo] at hr
      by_cases hi : i < script.length
      · rw [if_pos hi] at hr
        by_cases ha : actAt script i = true
        · rw [if_pos ha] at hr
          simp only [Option.some.injEq] at hr
          subst hr
          exact ⟨Nat.le_refl i, ha, fun k h1 h2 => absurd h1 (by omega)⟩
        · rw [if_neg ha] at hr
          obtain ⟨h1, h2, h3⟩ := ih (i + 1) r hr
          refine ⟨by omega, h2, ?_⟩
          intro k hk1 hk2
          rcases Nat.eq_or_lt_of_le hk1 with heq | hlt
          · rw [← heq]
            simpa using ha
          · exact h3 k hlt hk2
      · rw [if_neg hi] at hr
        exact absurd hr (by simp)

lemma regressScan_none_spec (script : List ScriptLine) :
    ∀ i, regressScan script i = none →
      ∀ k, k < i → actAt script k = false := by
  intro i
  induction i with
  | zero => intro _ k hk; omega
  | succ i ih =>
      intro hnone k hk
      rw [regressScan] at hnone
      by_cases ha : actAt script i = true
      · rw [if_pos ha] at hnone
        exact absurd hnone (by simp)
      · rw [if_neg ha] at hnone
        rcases Nat.lt_succ_iff_lt_or_eq.mp hk with hlt | heq
        · exact ih hnone k hlt
        · rw [heq]
          simpa using ha

lemma regressScan_some_spec (script : List ScriptLine) :
    ∀ i r, regressScan script i = some r →
      r < i ∧ actAt script r = true ∧
        ∀ k, r < k → k < i → actAt script k = false := by
  intro i
  induction i with
  | zero => intro r hr; exact absurd hr (by simp [regressScan])
  | succ i ih =>
      intro r hr
      rw [regressScan] at hr
      by_cases ha : actAt script i = true
      · rw [if_pos ha] at hr
        simp only [Option.some.injEq] at hr
        subst hr
        exact ⟨Nat.lt_succ_self i, ha, fun k h1 h2 => by omega⟩
      · rw [if_neg ha] at hr
        obtain ⟨h1, h2, h3⟩ := ih r hr
        refine ⟨by omega, h2, ?_⟩
        intro k hk1 hk2
        rcases Nat.lt_succ_iff_lt_or_eq.mp hk2 with hlt | heq
        · exact h3 k hk1 hlt
        · rw [heq]
          simpa using ha

/-- C5: `advanceLine` moves the cursor forward to the nearest later
actionable position (Dialogue from any character, or a Cue), skipping
scene markers; when no actionable position exists ahead the cursor is
unchanged and repeated calls stay put; `regressLine` is symmetric,
scanning backward.  (`src/App.tsx`, second snapshot, lines 390-416.) -/
theorem advanceLine_regressLine_spec (script : List ScriptLine)
    (prev : Nat) :
    ((∃ j, prev < j ∧ actAt script j = true) →
        prev < advanceLine script prev ∧
          actAt script (advanceLine script prev) = true ∧
          ∀ k, prev < k → k < advanceLine script prev →
            actAt script k = false) ∧
      ((∀ j, prev < j → actAt script j = false) →
        advanceLine script prev = prev ∧
          advanceLine script (advanceLine script prev) = prev) ∧
      ((∃ j, j < prev ∧ actAt script j = true) →
        regressLine script prev < prev ∧
          actAt script (regressLine script prev) = true ∧
          ∀ k, regressLine script prev < k → k < prev →
            actAt script k = false) ∧
      ((∀ j, j < prev → actAt script j = false) →
        regressLine script prev = prev) := by
  refine ⟨?_, ?_, ?_, ?_⟩
  · rintro ⟨j, hj, haj⟩
    cases hscan : advanceScan script (prev + 1) with
    | none =>
        have := advanceScanGo_none_spec script (script.length - (prev + 1))
          (prev + 1) (by omega) hscan j (by omega)
        rw [this] at haj
        exact absurd haj (by simp)
    | some r =>
        obtain ⟨h1, h2, h3⟩ := advanceScanGo_some_spec script
          (script.length - (prev + 1)) (prev + 1) r hscan
        have hAL : advanceLine script prev = r := by
          rw [advanceLine, hscan]
        rw [hAL]
        exact ⟨by omega, h2, fun k hk1 hk2 => h3 k (by omega) hk2⟩
  · intro hnone
    have hA : advanceLine script prev = prev := by
      cases hscan : advanceScan script (prev + 1) with
      | none => rw [advanceLine, hscan]
      | some r =>
          obtain ⟨h1, h2, -⟩ := advanceScanGo_some_spec script
            (script.length - (prev + 1)) (prev + 1) r hscan
          rw [hnone r (by omega)] at h2
          exact absurd h2 (by simp)
    exact ⟨hA, by rw [hA, hA]⟩
  · rintro ⟨j, hj, haj⟩
    cases hscan : regressScan script prev with
    | none =>
        have := regressScan_none_spec script prev hscan j hj
        rw [this] at haj
        exact absurd haj (by simp)
    | some r =>
        obtain ⟨h1, h2, h3⟩ := regressScan_some_spec script prev r hscan
        have hRL : regressLine script prev = r := by
          rw [regressLine, hscan]
        rw [hRL]
        exact ⟨h1, h2, h3⟩
  · intro hnone
    cases hscan : regressScan script prev with
    | none => rw [regressLine, hscan]
    | some r =>
        obtain ⟨h1, h2, -⟩ := regressScan_some_spec script prev r hscan
        rw [hnone r h1] at h2
        exact absurd h2 (by simp)

/-- C5 witness: in `[USER dialogue, scene marker, cue, ANGIE dialogue]`,
advancing from 0 skips the marker and lands on the cue at 2; advancing
from the last position 3 is a no-op, twice; regressing from 2 lands on
the dialogue at 0. -/
theorem advanceLine_regressLine_spec_witness :
    advanceLine [ScriptLine.dialogue "USER" "Hi.",
        ScriptLine.sceneMarker "SCENE 2",
        ScriptLine.cue CueType.CUT_TO_TEXT "(cut to text)" none none,
        ScriptLine.dialogue "ANGIE" "Later."] 0 = 2 ∧
      advanceLine [ScriptLine.dialogue "USER" "Hi.",
        ScriptLine.sceneMarker "SCENE 2",
        ScriptLine.cue CueType.CUT_TO_TEXT "(cut to text)" none none,
        ScriptLine.dialogue "ANGIE" "Later."] 3 = 3 ∧
      advanceLine [ScriptLine.dialogue "USER" "Hi.",
        ScriptLine.sceneMarker "SCENE 2",
        ScriptLine.cue CueType.CUT_TO_TEXT "(cut to text)" none none,
        ScriptLine.dialogue "ANGIE" "Later."]
        (advanceLine [ScriptLine.dialogue "USER" "Hi.",
          ScriptLine.sceneMarker "SCENE 2",
          ScriptLine.cue CueType.CUT_TO_TEXT "(cut to text)" none none,
          ScriptLine.dialogue "ANGIE" "Later."] 3) = 3 ∧
      regressLine [ScriptLine.dialogue "USER" "Hi.",
        ScriptLine.sceneMarker "SCENE 2",
        ScriptLine.cue CueType.CUT_TO_TEXT "(cut to text)" none none,
        ScriptLine.dialogue "ANGIE" "Later."] 2 = 0 := by
  have h3 := (advanceLine_regressLine_spec [ScriptLine.dialogue "USER" "Hi.",
      ScriptLine.sceneMarker "SCENE 2",
      ScriptLine.cue CueType.CUT_TO_TEXT "(cut to text)" none none,
      ScriptLine.dialogue "ANGIE" "Later."] 3).2.1 ?_
  · exact ⟨by decide, h3.1, h3.2, by decide⟩
  · intro j hj
    have hlen : ([ScriptLine.dialogue "USER" "Hi.",
        ScriptLine.sceneMarker "SCENE 2",
        ScriptLine.cue CueType.CUT_TO_TEXT "(cut to text)" none none,
        ScriptLine.dialogue "ANGIE" "Later."]).length ≤ j := by
      simpa using hj
    simp [actAt, List.getElem?_eq_none hlen]

/-- C8: for a play-voicemail cue carrying an audio index, resolving the
index against the audio list either finds the asset — it is played, no
immediate advance fires, and exactly one advance is requested once
playback ends — or misses, in which case the miss is logged and exactly
one advance is still requested immediately, so the show never stalls. -/
theorem pm8_voicemail_never_stalls (audioFiles : List AudioFile)
    (viewMode : ViewMode) (videoState : PM8VideoState) (idx : Nat) :
    (∀ a, audioFiles[idx]? = some a →
        (pm8CueReact audioFiles viewMode videoState
            CueType.PLAY_VOICEMAIL (some idx)).effects
            = [.playAudioOnEndComplete a.url] ∧
          pm8OnEndAdvances (pm8CueReact audioFiles viewMode videoState
            CueType.PLAY_VOICEMAIL (some idx)).effects = 1 ∧
          pm8ImmediateAdvances (pm8CueReact audioFiles viewMode videoState
            CueType.PLAY_VOICEMAIL (some idx)).effects = 0) ∧
      (audioFiles[idx]? = none →
        pm8WarnLogged (pm8CueReact audioFiles viewMode videoState
            CueType.PLAY_VOICEMAIL (some idx)).effects = true ∧
          pm8ImmediateAdvances (pm8CueReact audioFiles viewMode videoState
            CueType.PLAY_VOICEMAIL (some idx)).effects = 1 ∧
          pm8OnEndAdvances (pm8CueReact audioFiles viewMode videoState
            CueType.PLAY_VOICEMAIL (some idx)).effects = 0) := by
  constructor
  · intro a ha
    simp [pm8CueReact, ha, pm8OnEndAdvances, pm8ImmediateAdvances,
      List.countP_cons]
  · intro ha
    simp [pm8CueReact, ha, pm8OnEndAdvances, pm8ImmediateAdvances,
      pm8WarnLogged, List.countP_cons]

/-- C8 witness: the spec's scenario C — one audio asset, voicemail index
0: playback starts on that asset and exactly one advance fires on its
end; and the missing case at index 1 logs and advances immediately. -/
theorem pm8_voicemail_never_stalls_witness :
    ((pm8CueReact [⟨"1_voicemail.mp3", "blob:vm1"⟩] ViewMode.TEXT
          ⟨.IDLE, -1⟩ CueType.PLAY_VOICEMAIL (some 0)).effects
        = [.playAudioOnEndComplete "blob:vm1"] ∧
      pm8OnEndAdvances (pm8CueReact [⟨"1_voicemail.mp3", "blob:vm1"⟩]
          ViewMode.TEXT ⟨.IDLE, -1⟩ CueType.PLAY_VOICEMAIL
          (some 0)).effects = 1 ∧
      pm8ImmediateAdvances (pm8CueReact [⟨"1_voicemail.mp3", "blob:vm1"⟩]
          ViewMode.TEXT ⟨.IDLE, -1⟩ CueType.PLAY_VOICEMAIL
          (some 0)).effects = 0) ∧
      (pm8WarnLogged (pm8CueReact [⟨"1_voicemail.mp3", "blob:vm1"⟩]
          ViewMode.TEXT ⟨.IDLE, -1⟩ CueType.PLAY_VOICEMAIL
          (some 1)).effects = true ∧
        pm8ImmediateAdvances (pm8CueReact [⟨"1_voicemail.mp3", "blob:vm1"⟩]
          ViewMode.TEXT ⟨.IDLE, -1⟩ CueType.PLAY_VOICEMAIL
          (some 1)).effects = 1) :=
  ⟨(pm8_voicemail_never_stalls [⟨"1_voicemail.mp3", "blob:vm1"⟩]
      ViewMode.TEXT ⟨.IDLE, -1⟩ 0).1 ⟨"1_voicemail.mp3", "blob:vm1"⟩ rfl,
    ((pm8_voicemail_never_stalls [⟨"1_voicemail.mp3", "blob:vm1"⟩]
        ViewMode.TEXT ⟨.IDLE, -1⟩ 1).2 rfl).1,
    ((pm8_voicemail_never_stalls [⟨"1_voicemail.mp3", "blob:vm1"⟩]
        ViewMode.TEXT ⟨.IDLE, -1⟩ 1).2 rfl).2.1⟩

/-- C9 counterexample: the claim states that `onEnd` is invoked exactly
once both when playback completes normally and when playback is aborted
by an error.  At the concrete error event this fails: the `onerror`
handler logs and clears the playing flag but never invokes `onEnd`
(zero calls), so the universally stated claim is false. -/
theorem audioPlayer_onEnd_on_error_counterexample :
    ¬ (∀ e, (e = AudioEvent.mediaEnded ∨ e = AudioEvent.mediaError) →
        onEndCalls e = 1) := by
  intro h
  have := h AudioEvent.mediaError (Or.inr rfl)
  simp [onEndCalls, audioHandle, List.countP_cons] at this

/-- C9 (amended): every `play(url, onEnd)` call that starts playback
(nonempty url) first stops and releases any previously playing
instance; `onEnd` is invoked exactly once when playback completes
normally; when playback is aborted by an error the error is logged (not
thrown) and the playing flag is cleared, but `onEnd` is not invoked. -/
theorem audioPlayer_onEnd_semantics
    (url : String) (hurl : url ≠ "") :
    playEntry true url = ⟨true, true⟩ ∧
      onEndCalls AudioEvent.mediaEnded = 1 ∧
      onEndCalls AudioEvent.mediaError = 0 ∧
      logsError AudioEvent.mediaError = true ∧
      AudioAction.setIsPlaying false ∈ audioHandle AudioEvent.mediaError := by
  refine ⟨?_, by decide, by decide, by decide, by decide⟩
  rw [playEntry, if_neg]
  simp [hurl]

/-- C9 witness: the amended contract at a concrete url. -/
theorem audioPlayer_onEnd_semantics_witness :
    playEntry true "blob:clip1" = ⟨true, true⟩ ∧
      onEndCalls AudioEvent.mediaEnded = 1 ∧
      onEndCalls AudioEvent.mediaError = 0 ∧
      logsError AudioEvent.mediaError = true ∧
      AudioAction.setIsPlaying false ∈ audioHandle AudioEvent.mediaError :=
  audioPlayer_onEnd_semantics "blob:clip1" (by decide)

lemma notAngle_cons_push (x : ScriptLine) (acc : List ScriptLine)
    (hx : NotAngleLine x) (hacc : ∀ l ∈ acc, NotAngleLine l) :
    ∀ l ∈ x :: acc, NotAngleLine l := by
  intro l hl
  rcases List.mem_cons.mp hl with heq | hmem
  · rw [heq]; exact hx
  · exact hacc l hmem

lemma parseLine_noAngle (st : ParseState) (line : String)
    (h : NoAngleState st) : NoAngleState (parseLine st line) := by
  obtain ⟨hacc, hlast⟩ := h
  simp only [parseLine]
  split
  · exact ⟨hacc, hlast⟩
  · split
    · -- scene marker
      refine ⟨notAngle_cons_push _ _ ?_ hacc, by simp⟩
      intro c t hct
      exact absurd hct (by simp)
    · split
      · -- cue
        refine ⟨notAngle_cons_push _ _ ?_ hacc, by simp⟩
        intro c t hct
        exact absurd hct (by simp)
      · split
        · -- dialogue match
          next character text heq =>
            by_cases hang : (jsToUpper (jsTrim character) == "ANGLE") = true
            · rw [if_pos hang]
              refine ⟨notAngle_cons_push _ _ ?_ hacc, by simp⟩
              intro c t hct
              injection hct with hc ht
              rw [← hc]
              decide
            · rw [if_neg hang]
              refine ⟨notAngle_cons_push _ _ ?_ hacc, ?_⟩
              · intro c t hct
                injection hct with hc ht
                rw [← hc]
                intro hcontra
                rw [hcontra] at hang
                simp at hang
              · intro hcontra
                simp only [Option.some.injEq] at hcontra
                rw [hcontra] at hang
                simp at hang
        · split
          · -- continuation with a remembered speaker
            next lc hlc =>
              have hlcne : lc ≠ "ANGLE" := by
                intro hcon
                exact hlast (by rw [hlc, hcon])
              split
              · -- inside a parenthetical
                split
                · next c0 t0 rest haccm =>
                    rw [haccm] at hacc
                    refine ⟨notAngle_cons_push _ _ ?_
                      (fun l hl => hacc l (List.mem_cons_of_mem _ hl)), ?_⟩
                    · intro c t hct
                      injection hct with hc ht
                      rw [← hc]
                      exact hacc (.dialogue c0 t0) (List.mem_cons_self _ _)
                        c0 t0 rfl
                    · exact hlast
                · exact ⟨hacc, hlast⟩
              · -- plain continuation line
                refine ⟨notAngle_cons_push _ _ ?_ hacc, hlast⟩
                intro c t hct
                injection hct with hc ht
                rw [← hc]
                intro hcontra
                exact hlcne hcontra
          · -- fallback USER line
            refine ⟨notAngle_cons_push _ _ ?_ hacc, by simp⟩
            intro c t hct
            injection hct with hc ht
            rw [← hc]
            decide

lemma foldl_parseLine_noAngle (ls : List (List Char)) (st : ParseState)
    (h : NoAngleState st) :
    NoAngleState (ls.foldl (fun st l => parseLine st ⟨l⟩) st) := by
  induction ls generalizing st with
  | nil => exact h
  | cons l ls ih => exact ih _ (parseLine_noAngle _ _ h)

/-- C10: `parseScript` corrects the speaker typo `ANGLE`: a line that is
not a scene marker or cue and whose dialogue-matched speaker trims and
upper-cases to `"ANGLE"` is emitted as a dialogue line attributed to
`"ANGIE"` (the computer character); consequently no line of any parsed
script is ever attributed to `"ANGLE"`. -/
theorem parseScript_corrects_angle_typo :
    (∀ (st : ParseState) (line character text : String),
        isSceneLine (jsTrim line) = false →
        (parseCue (jsTrim line)).cue = CueType.UNKNOWN →
        dialogueMatch (jsTrim line) = some (character, text) →
        jsToUpper (jsTrim character) = "ANGLE" →
        (parseLine st line).acc
          = ScriptLine.dialogue "ANGIE" (jsTrim text) :: st.acc) ∧
      ∀ (scriptText : String) (l : ScriptLine),
        l ∈ parseScript scriptText →
        ∀ c t, l = ScriptLine.dialogue c t → c ≠ "ANGLE" := by
  constructor
  · intro st line character text hscene hcue hd hup
    have hne : ¬ (jsTrim line == "") = true := by
      intro hcon
      have h0 : jsTrim line = "" := by simpa using hcon
      rw [h0] at hd
      simp [dialogueMatch] at hd
    have hsc : ¬ (isSceneLine (jsTrim line)) = true := by simp [hscene]
    have hcu : ¬ ((parseCue (jsTrim line)).cue ≠ CueType.UNKNOWN) := by
      simp [hcue]
    have hang : (jsToUpper (jsTrim character) == "ANGLE") = true := by
      simp [hup]
    simp only [parseLine, if_neg hne, if_neg hsc, if_neg hcu, hd,
      if_pos hang]
  · intro scriptText l hl c t hlc
    have hinv := foldl_parseLine_noAngle (jsRegexSplitLines scriptText.data)
      ⟨[], none, false⟩ ⟨by simp, by simp⟩
    rw [parseScript, List.mem_reverse] at hl
    exact hinv.1 l hl c t hlc

/-- C10 witness: `"ANGLE: Hello."` is parsed as an ANGIE dialogue line,
and the parsed ANGIE line of `"ANGLE: Hi."` is not attributed to
`"ANGLE"`. -/
theorem parseScript_corrects_angle_typo_witness :
    (parseLine ⟨[], none, false⟩ "ANGLE: Hello.").acc
        = [ScriptLine.dialogue "ANGIE" "Hello."] ∧
      ("ANGIE" : String) ≠ "ANGLE" :=
  ⟨(parseScript_corrects_angle_typo.1 ⟨[], none, false⟩ "ANGLE: Hello."
      "ANGLE" " Hello." (by decide) (by decide) (by decide)
      (by decide)).trans (by decide),
    parseScript_corrects_angle_typo.2 "ANGLE: Hi."
      (.dialogue "ANGIE" "Hi.") (by decide) "ANGIE" "Hi." rfl⟩
